import Mathlib

/-!
Verification of the segmented download manager
(`downloader.py`, `function_utils_size.py`).

The Python source is shallowly embedded below:

* `ceil_div` is `math.ceil(a / b)` on non-negative integers;
* `decLoop`/`incLoop` are the two `while` loops of `calc_file_chunks`
  adjusting the part count (the increment loop can run at most `6 - n`
  times, so a fuel of `6` makes it semantically identical to the source
  loop);
* `calc_file_chunks` and `verify_splitted_chunks` mirror
  `function_utils_size.py` (byte positions are Python ints, so ranges are
  pairs of `Int`; for `file_size = 0` the single range really is
  `(0, -1)`);
* `download_part_events` is the event stream a single range fetcher
  (`download_part`) pushes on the shared queue, as a function of the
  chunks delivered by the HTTP response stream;
* `drainStep`/`drainEvents`/`tick`/`aggLoop` embed the progress
  aggregator `show_download_progress`;
* `download_file` embeds the orchestrator's control flow, with the
  outcome of the gathered fetchers abstracted to a boolean input.
-/

/-- `math.ceil(a / b)` for naturals, as used by `calc_file_chunks`
(`function_utils_size.py` lines 30, 36, 45). -/
def ceil_div (a b : ℕ) : ℕ := (a + b - 1) / b

/-- The first `while` loop of `calc_file_chunks`
(`function_utils_size.py` lines 29-33): decrement the part count while
`ceil(file_size / min_chunk_size) < parts` and `parts > 1`.  Recursion is
on the part count itself, which strictly decreases. -/
def decLoop (file_size mn : ℕ) : ℕ → ℕ
  | 0 => 0
  | n + 1 =>
    if ceil_div file_size mn < n + 1 ∧ 1 < n + 1 then decLoop file_size mn n
    else n + 1

/-- The second `while` loop of `calc_file_chunks`
(`function_utils_size.py` lines 35-39): increment the part count while
`ceil(file_size / max_chunk_size) > parts` and `parts < 6`.  The loop can
iterate at most `6 - parts` times, so running it with fuel `6` is exact. -/
def incLoop (file_size mx : ℕ) : ℕ → ℕ → ℕ
  | 0, n => n
  | fuel + 1, n =>
    if n < ceil_div file_size mx ∧ n < 6 then incLoop file_size mx fuel (n + 1)
    else n

/-- The `for i in range(file_total_size)` loop of `calc_file_chunks`
(`function_utils_size.py` lines 47-53): range `i` is
`[i*chunk, min(i*chunk + chunk, file_size) - 1]`, on Python ints. -/
def partsFor (n c file_size : ℕ) : List (Int × Int) :=
  (List.range n).map fun i =>
    (((i * c : ℕ) : Int), min (((i * c + c : ℕ)) : Int) ((file_size : ℕ) : Int) - 1)

/-- `calc_file_chunks` (`function_utils_size.py` lines 15-55): defaults the
bounds to 10 MiB / 100 MiB, adjusts the part count with the two loops,
clamps it to at least 1, and emits the ranges and the nominal chunk size. -/
def calc_file_chunks (file_size : ℕ) (min_chunk_size max_chunk_size : Option ℕ) :
    List (Int × Int) × ℕ :=
  let mn := min_chunk_size.getD (10 * 1024 * 1024)
  let mx := max_chunk_size.getD (100 * 1024 * 1024)
  let p := incLoop file_size mx 6 (decLoop file_size mn 3)
  let file_total_size := if p < 1 then 1 else p
  let chunk := ceil_div file_size file_total_size
  (partsFor file_total_size chunk file_size, chunk)

/-- The inclusive length `end - start + 1` of one planned range, the
summand of `verify_splitted_chunks` (`function_utils_size.py` line 62). -/
def part_len (p : Int × Int) : Int := p.2 - p.1 + 1

/-- `sum(map(lambda part: part[1] - part[0] + 1, parts))`
(`function_utils_size.py` line 62). -/
def sum_parts_len (parts : List (Int × Int)) : Int := (parts.map part_len).sum

/-- `verify_splitted_chunks` (`function_utils_size.py` lines 58-64): the
`assert` raises `AssertionError` when the summed lengths differ from the
file size, otherwise the function returns `True`. -/
def verify_splitted_chunks (parts : List (Int × Int)) (file_size : ℕ) :
    Except String Bool :=
  if sum_parts_len parts = (file_size : Int) then Except.ok true
  else Except.error "file size mismatch"

/-- One read from the HTTP response stream inside `download_part`
(`downloader.py` line 37): either a chunk of `n` bytes (`n = 0` is the
empty chunk ending the stream) or a raised I/O or protocol error. -/
inductive ReadRes where
  | chunk (n : ℕ)
  | fail
deriving DecidableEq

/-- The queue events produced by one `download_part` invocation
(`downloader.py` lines 21-42) as a function of its response stream,
together with whether the invocation completed without raising.
The body loop puts `len(chunk)` for each non-empty chunk and breaks on an
empty chunk; `queue.put(-1)` (line 42) runs only after the loop, so a
raised error mid-stream propagates with no sentinel sent. -/
def download_part_events : List ReadRes → List Int × Bool
  | [] => ([(-1 : Int)], true)
  | ReadRes.chunk 0 :: _ => ([(-1 : Int)], true)
  | ReadRes.chunk (n + 1) :: rest =>
    let r := download_part_events rest
    (((n : Int) + 1) :: r.1, r.2)
  | ReadRes.fail :: _ => ([], false)

/-- The aggregator's state in `show_download_progress`
(`downloader.py` lines 78-79): `downloaded` and `finished`. -/
structure AggState where
  downloaded : Int
  finished : ℕ
deriving DecidableEq

/-- One pass of the inner drain loop body of `show_download_progress`
(`downloader.py` lines 84-87) on the accumulator
`(download_per_second, finished increments)`: the source increments
`finished` when `chunk_size != -1` and adds every `chunk_size` (the `-1`
sentinel included) to `download_per_second`. -/
def drainStep (acc : Int × ℕ) (e : Int) : Int × ℕ :=
  (acc.1 + e, if e ≠ -1 then acc.2 + 1 else acc.2)

/-- The inner `while not queue.empty()` drain loop
(`downloader.py` lines 82-87) over the events queued during one tick. -/
def drainEvents (events : List Int) : Int × ℕ :=
  events.foldl drainStep (0, 0)

/-- The guarded ETA computation of a reporting tick
(`downloader.py` lines 90-102): only when `download_per_second > 0` is
`remaining_second = (total_size - downloaded) // download_per_second`
evaluated and a progress line rendered; the rendered line is abstracted
to its ETA value. -/
def tickRender (total_size : ℕ) (downloaded dps : Int) : Option Int :=
  if 0 < dps then some ((((total_size : ℕ) : Int) - downloaded) / dps)
  else none

/-- One reporting tick of `show_download_progress`
(`downloader.py` lines 82-103): drain the queued events, add the per-tick
delta to `downloaded`, add the drained increments to `finished`, and
render only under the `download_per_second > 0` guard. -/
def tick (total_size : ℕ) (st : AggState) (events : List Int) :
    AggState × Option Int :=
  let d := drainEvents events
  let downloaded := st.downloaded + d.1
  (⟨downloaded, st.finished + d.2⟩, tickRender total_size downloaded d.1)

/-- The outer `while finished != total_parts` loop of
`show_download_progress` (`downloader.py` lines 81-103), with the events
queued during tick `t` given by `ticks t`.  `none` means the given fuel
ran out with the loop still running. -/
def aggLoop (total_parts total_size : ℕ) (ticks : ℕ → List Int) :
    ℕ → ℕ → AggState → Option AggState
  | 0, _, st => if st.finished = total_parts then some st else none
  | fuel + 1, t, st =>
    if st.finished = total_parts then some st
    else aggLoop total_parts total_size ticks fuel (t + 1) (tick total_size st (ticks t)).1

/-- A single fetcher that downloads an empty body: its only event is the
`-1` sentinel, queued during tick `0`. -/
def oneSentinelStream : ℕ → List Int := fun t => if t = 0 then [(-1 : Int)] else []

/-- The ways `download_file` (`downloader.py` lines 106-169) terminates
abnormally: missing `Content-Length` (line 119), the `assert` of
`verify_splitted_chunks` (line 131), and the `UnboundLocalError` raised by
`return saved` (line 169) when the failure branch never assigned `saved`. -/
inductive DLErr where
  | noContentLength
  | assertFail
  | unboundLocal
deriving DecidableEq

/-- The control flow of `download_file` (`downloader.py` lines 106-169).
`content_length` is the header value delivered by the HEAD request;
`all_fetch_ok` abstracts whether `await download_future` succeeded (the
gathered fetchers and aggregator all completed without raising).  The
second component records whether the fetchers were launched.  On the
success path `saved = await merge_file_parts(...) = True`; on the failure
path the partial parts are deleted and `return saved` reads the never
assigned local `saved`, raising `UnboundLocalError`. -/
def download_file (content_length : Option ℕ)
    (min_chunk_size max_chunk_size : Option ℕ) (all_fetch_ok : Bool) :
    Except DLErr Bool × Bool :=
  match content_length with
  | none => (Except.error DLErr.noContentLength, false)
  | some file_size =>
    let parts := (calc_file_chunks file_size min_chunk_size max_chunk_size).1
    match verify_splitted_chunks parts file_size with
    | Except.error _ => (Except.error DLErr.assertFail, false)
    | Except.ok _ =>
      if all_fetch_ok then (Except.ok true, true)
      else (Except.error DLErr.unboundLocal, true)

/-! ### Closed forms for the part-count loops -/

/-- The decrement loop lowers the part count to `max 1 (min n ceil(fs/mn))`. -/
lemma decLoop_eq (file_size mn : ℕ) :
    ∀ n, 1 ≤ n → decLoop file_size mn n = max 1 (min n (ceil_div file_size mn)) := by
  intro n
  induction n with
  | zero => omega
  | succ n ih =>
    intro _
    simp only [decLoop]
    split_ifs with h
    · rw [ih (by omega)]
      omega
    · omega

/-- The increment loop raises the part count to `max n (min 6 ceil(fs/mx))`
whenever the fuel covers the remaining distance to the cap of 6. -/
lemma incLoop_eq (file_size mx : ℕ) :
    ∀ fuel n, 6 ≤ fuel + n → n ≤ 6 →
      incLoop file_size mx fuel n = max n (min 6 (ceil_div file_size mx)) := by
  intro fuel
  induction fuel with
  | zero =>
    intro n h1 h2
    simp only [incLoop]
    omega
  | succ fuel ih =>
    intro n h1 h2
    simp only [incLoop]
    split_ifs with h
    · rw [ih (n + 1) (by omega) (by omega)]
      omega
    · omega

/-- The part count finally used by `calc_file_chunks` for bounds `mn`, `mx`. -/
def plannedCount (file_size mn mx : ℕ) : ℕ :=
  max (max 1 (min 3 (ceil_div file_size mn))) (min 6 (ceil_div file_size mx))

lemma plannedCount_pos (file_size mn mx : ℕ) : 1 ≤ plannedCount file_size mn mx := by
  unfold plannedCount; omega

lemma plannedCount_le_six (file_size mn mx : ℕ) : plannedCount file_size mn mx ≤ 6 := by
  unfold plannedCount; omega

/-- Evaluation of `calc_file_chunks`: the two loops produce `plannedCount`,
the clamp to 1 is vacuous, and the ranges are those of `partsFor`. -/
lemma calc_file_chunks_eval (file_size : ℕ) (min_chunk_size max_chunk_size : Option ℕ) :
    calc_file_chunks file_size min_chunk_size max_chunk_size =
      (partsFor
        (plannedCount file_size (min_chunk_size.getD (10 * 1024 * 1024))
          (max_chunk_size.getD (100 * 1024 * 1024)))
        (ceil_div file_size
          (plannedCount file_size (min_chunk_size.getD (10 * 1024 * 1024))
            (max_chunk_size.getD (100 * 1024 * 1024))))
        file_size,
       ceil_div file_size
        (plannedCount file_size (min_chunk_size.getD (10 * 1024 * 1024))
          (max_chunk_size.getD (100 * 1024 * 1024)))) := by
  simp only [calc_file_chunks]
  rw [decLoop_eq file_size _ 3 (by omega)]
  rw [incLoop_eq file_size _ 6 _ (by omega) (by omega)]
  have hp : ¬ (max (max 1 (min 3 (ceil_div file_size (min_chunk_size.getD (10 * 1024 * 1024)))))
      (min 6 (ceil_div file_size (max_chunk_size.getD (100 * 1024 * 1024)))) < 1) := by
    omega
  simp only [hp, if_false, plannedCount]

/-! ### Arithmetic facts about `ceil_div` -/

lemma ceil_div_zero_left (b : ℕ) : ceil_div 0 b = 0 := by
  unfold ceil_div
  rcases Nat.eq_zero_or_pos b with h | h
  · subst h; rfl
  · exact Nat.div_eq_of_lt (by omega)

lemma ceil_div_pos (a b : ℕ) (ha : 1 ≤ a) (hb : 1 ≤ b) : 1 ≤ ceil_div a b := by
  unfold ceil_div
  rw [Nat.le_div_iff_mul_le hb]
  omega

/-- `n * ceil(a / n)` covers `a`. -/
lemma le_mul_ceil_div (a n : ℕ) (hn : 0 < n) : a ≤ n * ceil_div a n := by
  unfold ceil_div
  have h := Nat.div_add_mod (a + n - 1) n
  have h2 : (a + n - 1) % n < n := Nat.mod_lt _ hn
  generalize n * ((a + n - 1) / n) = M at h ⊢
  omega

/-- When `(n-1)^2 < a`, the first `n - 1` nominal chunks do not yet cover
`a`, i.e. no planned range is degenerate. -/
lemma pred_mul_ceil_div_lt (a n : ℕ) (hn : 1 ≤ n) (h : (n - 1) * (n - 1) < a) :
    (n - 1) * ceil_div a n < a := by
  obtain ⟨m, rfl⟩ : ∃ m, n = m + 1 := ⟨n - 1, by omega⟩
  simp only [Nat.add_sub_cancel] at h ⊢
  unfold ceil_div
  have e : a + (m + 1) - 1 = a + m := by omega
  rw [e]
  have h1 : m * ((a + m) / (m + 1)) ≤ m * (a + m) / (m + 1) :=
    Nat.mul_div_le_mul_div_assoc _ _ _
  have h2 : m * (a + m) / (m + 1) < a := by
    rw [Nat.div_lt_iff_lt_mul (by omega)]
    nlinarith
  omega

/-! ### Structural properties of the planned ranges -/

/-- Adjacent planned ranges are contiguous (next start = previous end + 1)
as long as each non-final nominal boundary stays within the file. -/
lemma partsFor_chain' (n c file_size : ℕ)
    (h : ∀ i, i + 1 < n → (i + 1) * c ≤ file_size) :
    List.Chain' (fun p q : Int × Int => q.1 = p.2 + 1) (partsFor n c file_size) := by
  unfold partsFor
  rw [List.chain'_map]
  cases n with
  | zero => simp
  | succ m =>
    rw [List.chain'_range_succ]
    intro i hi
    have hb : (i + 1) * c ≤ file_size := h i (by omega)
    rw [show (i + 1) * c = i * c + c from by ring] at hb
    simp only [show (i + 1) * c = i * c + c from by ring]
    push_cast
    omega

/-- Planned ranges are strictly ascending and non-overlapping: each range
ends before the next one starts. -/
lemma partsFor_pairwise (n c file_size : ℕ) :
    List.Pairwise (fun p q : Int × Int => p.2 < q.1) (partsFor n c file_size) := by
  unfold partsFor
  rw [List.pairwise_map]
  refine (List.pairwise_lt_range n).imp ?_
  intro a b hab
  have h1 : a * c + c ≤ b * c := by
    have : (a + 1) * c ≤ b * c := Nat.mul_le_mul_right c (by omega)
    nlinarith
  simp only []
  push_cast
  omega

/-- Every planned range satisfies `start <= end` as long as the chunk size
is positive and the last range's start lies inside the file. -/
lemma partsFor_start_le_end (n c file_size : ℕ) (hc : 1 ≤ c)
    (hlast : (n - 1) * c < file_size) :
    ∀ p ∈ partsFor n c file_size, p.1 ≤ p.2 := by
  intro p hp
  unfold partsFor at hp
  rw [List.mem_map] at hp
  obtain ⟨i, hi, rfl⟩ := hp
  rw [List.mem_range] at hi
  have h1 : i * c ≤ (n - 1) * c := Nat.mul_le_mul_right c (by omega)
  simp only []
  push_cast
  omega

/-- The planned ranges' inclusive lengths telescope: as long as every
nominal boundary below `n` is inside the file, the lengths of the first
`n` ranges sum to `min (n * c) file_size`. -/
lemma partsFor_sum (c file_size : ℕ) :
    ∀ n, (∀ j, j < n → j * c ≤ file_size) →
      sum_parts_len (partsFor n c file_size) =
        min (((n * c : ℕ) : Int)) ((file_size : ℕ) : Int) := by
  intro n
  induction n with
  | zero =>
    intro _
    simp [partsFor, sum_parts_len]
  | succ m ih =>
    intro h
    have hm : m * c ≤ file_size := h m (by omega)
    unfold sum_parts_len partsFor
    rw [List.map_map, List.sum_range_succ]
    have ih' := ih (fun j hj => h j (by omega))
    unfold sum_parts_len partsFor at ih'
    rw [List.map_map] at ih'
    rw [ih']
    simp only [Function.comp, part_len]
    rw [show (m + 1) * c = m * c + c from by ring]
    push_cast
    omega

/-- The full coverage identity: with a positive chunk size and no
degenerate range, the planned lengths sum exactly to the file size. -/
lemma partsFor_sum_eq (n c file_size : ℕ) (hn : 1 ≤ n)
    (hlast : (n - 1) * c < file_size) (hcover : file_size ≤ n * c) :
    sum_parts_len (partsFor n c file_size) = ((file_size : ℕ) : Int) := by
  rw [partsFor_sum c file_size n ?_]
  · exact min_eq_right (by exact_mod_cast hcover)
  · intro j hj
    have h1 : j * c ≤ (n - 1) * c := Nat.mul_le_mul_right c (by omega)
    omega

/-! ### Claim C5 -/

/-- C5 counterexample: the claim as stated fails.  For `file_size = 7`
with the positive bounds `min_chunk_size = max_chunk_size = 1`, the
planner returns ranges whose inclusive lengths sum to `3`, not `7`
(the plan is `[(0,1),(2,3),(4,5),(6,6),(8,6),(10,6)]`, with degenerate
and non-contiguous tail ranges). -/
theorem c5_counterexample :
    0 < (7 : ℕ) ∧ 0 < (1 : ℕ) ∧
    sum_parts_len (calc_file_chunks 7 (some 1) (some 1)).1 ≠ ((7 : ℕ) : Int) := by
  decide

/-- C5 (amended): for every `file_size > 25` and every pair of positive
min/max chunk bounds, the ranges returned by the planner are non-empty,
contiguous (each start is the previous end plus one), ascending and
non-overlapping, each has `end >= start`, and their inclusive lengths sum
exactly to `file_size`.  (`file_size > 25` guarantees no degenerate range
since the part count never exceeds 6; the original claim's `file_size > 0`
is refuted by `c5_counterexample`.) -/
theorem c5_plan_coverage (file_size mn mx : ℕ) (h25 : 25 < file_size)
    (hmn : 0 < mn) (hmx : 0 < mx) :
    (calc_file_chunks file_size (some mn) (some mx)).1 ≠ [] ∧
    List.Chain' (fun p q : Int × Int => q.1 = p.2 + 1)
      (calc_file_chunks file_size (some mn) (some mx)).1 ∧
    List.Pairwise (fun p q : Int × Int => p.2 < q.1)
      (calc_file_chunks file_size (some mn) (some mx)).1 ∧
    (∀ p ∈ (calc_file_chunks file_size (some mn) (some mx)).1, p.1 ≤ p.2) ∧
    sum_parts_len (calc_file_chunks file_size (some mn) (some mx)).1 =
      ((file_size : ℕ) : Int) := by
  rw [calc_file_chunks_eval]
  simp only [Option.getD_some]
  have hn1 : 1 ≤ plannedCount file_size mn mx := plannedCount_pos _ _ _
  have hn6 : plannedCount file_size mn mx ≤ 6 := plannedCount_le_six _ _ _
  have hsq : (plannedCount file_size mn mx - 1) * (plannedCount file_size mn mx - 1)
      < file_size := by
    have h5 : plannedCount file_size mn mx - 1 ≤ 5 := by omega
    have := Nat.mul_le_mul h5 h5
    omega
  have hc1 : 1 ≤ ceil_div file_size (plannedCount file_size mn mx) :=
    ceil_div_pos _ _ (by omega) (by omega)
  have hlast : (plannedCount file_size mn mx - 1) *
      ceil_div file_size (plannedCount file_size mn mx) < file_size :=
    pred_mul_ceil_div_lt _ _ hn1 hsq
  have hcover : file_size ≤ plannedCount file_size mn mx *
      ceil_div file_size (plannedCount file_size mn mx) :=
    le_mul_ceil_div _ _ (by omega)
  refine ⟨?_, ?_, ?_, ?_, ?_⟩
  · apply List.ne_nil_of_length_pos
    simp only [partsFor, List.length_map, List.length_range]
    omega
  · apply partsFor_chain'
    intro i hi
    have h1 : (i + 1) * ceil_div file_size (plannedCount file_size mn mx) ≤
        (plannedCount file_size mn mx - 1) *
          ceil_div file_size (plannedCount file_size mn mx) :=
      Nat.mul_le_mul_right _ (by omega)
    omega
  · exact partsFor_pairwise _ _ _
  · exact partsFor_start_le_end _ _ _ hc1 hlast
  · exact partsFor_sum_eq _ _ _ hn1 hlast hcover

/-- C5 witness: the amended coverage property at the concrete input
`file_size = 26`, `min_chunk_size = max_chunk_size = 1`. -/
theorem c5_plan_coverage_witness :
    (calc_file_chunks 26 (some 1) (some 1)).1 ≠ [] ∧
    List.Chain' (fun p q : Int × Int => q.1 = p.2 + 1)
      (calc_file_chunks 26 (some 1) (some 1)).1 ∧
    List.Pairwise (fun p q : Int × Int => p.2 < q.1)
      (calc_file_chunks 26 (some 1) (some 1)).1 ∧
    (∀ p ∈ (calc_file_chunks 26 (some 1) (some 1)).1, p.1 ≤ p.2) ∧
    sum_parts_len (calc_file_chunks 26 (some 1) (some 1)).1 = ((26 : ℕ) : Int) :=
  c5_plan_coverage 26 1 1 (by decide) (by decide) (by decide)

/-! ### Claim C6 -/

/-- C6 counterexample: for a 25 MiB file with default bounds the first
planned range is not `[0, 8388607]` (it is `[0, 8738133]`, since the
nominal chunk is `ceil(25 MiB / 3) = 8738134`). -/
theorem c6_counterexample :
    (calc_file_chunks (25 * 1024 * 1024) none none).1.head? ≠
      some ((0 : Int), (8388607 : Int)) := by
  decide

/-- C6 (amended): for `file_size = 25 * 1024 * 1024` with the default
bounds the planner produces exactly 3 ranges
`[0,8738133], [8738134,17476267], [17476268,26214399]`, of nominal size
`ceil(25 MiB / 3) = 8738134` (the last range shorter), and the range
lengths sum to exactly `25 * 1024 * 1024` bytes. -/
theorem c6_end_to_end_example :
    calc_file_chunks (25 * 1024 * 1024) none none =
      ([((0 : Int), (8738133 : Int)), ((8738134 : Int), (17476267 : Int)),
        ((17476268 : Int), (26214399 : Int))], 8738134) ∧
    ceil_div (25 * 1024 * 1024) 3 = 8738134 ∧
    sum_parts_len (calc_file_chunks (25 * 1024 * 1024) none none).1 =
      ((25 * 1024 * 1024 : ℕ) : Int) := by
  refine ⟨by decide, by decide, by decide⟩

/-! ### Claim C7 -/

/-- C7: for every `file_size` and positive bounds, the number of planned
ranges lies in `[1, 6]`; it exceeds the default of 3 only when the
`max_chunk_size`-implied count `ceil(file_size / max_chunk_size)` demands
it (and never beyond that count), and it drops below 3 only when the
`min_chunk_size`-implied count `ceil(file_size / min_chunk_size)` has
fallen to or below the result. -/
theorem c7_part_count_bounds (file_size mn mx : ℕ) (hmn : 0 < mn) (hmx : 0 < mx) :
    1 ≤ (calc_file_chunks file_size (some mn) (some mx)).1.length ∧
    (calc_file_chunks file_size (some mn) (some mx)).1.length ≤ 6 ∧
    (3 < (calc_file_chunks file_size (some mn) (some mx)).1.length →
      (calc_file_chunks file_size (some mn) (some mx)).1.length ≤ ceil_div file_size mx) ∧
    ((calc_file_chunks file_size (some mn) (some mx)).1.length < 3 →
      ceil_div file_size mn ≤ (calc_file_chunks file_size (some mn) (some mx)).1.length) := by
  rw [calc_file_chunks_eval]
  simp only [Option.getD_some, partsFor, List.length_map, List.length_range]
  unfold plannedCount
  omega

/-- C7 witness: the bounds at the concrete input `file_size = 100`,
`min_chunk_size = max_chunk_size = 1` (the planner caps at 6 parts). -/
theorem c7_part_count_bounds_witness :
    1 ≤ (calc_file_chunks 100 (some 1) (some 1)).1.length ∧
    (calc_file_chunks 100 (some 1) (some 1)).1.length ≤ 6 ∧
    (3 < (calc_file_chunks 100 (some 1) (some 1)).1.length →
      (calc_file_chunks 100 (some 1) (some 1)).1.length ≤ ceil_div 100 1) ∧
    ((calc_file_chunks 100 (some 1) (some 1)).1.length < 3 →
      ceil_div 100 1 ≤ (calc_file_chunks 100 (some 1) (some 1)).1.length) :=
  c7_part_count_bounds 100 1 1 (by decide) (by decide)

/-! ### Claim C10 -/

/-- C10: for `file_size = 0` and any chunk bounds the planner returns the
single degenerate range `(0, -1)` whose end is below its start, and
`verify_splitted_chunks` accepts the plan because the degenerate range
contributes length `-1 - 0 + 1 = 0` to the sum, which equals the file
size `0` (no `end >= start` check is performed). -/
theorem c10_zero_file_size (mn mx : Option ℕ) :
    calc_file_chunks 0 mn mx = ([((0 : Int), (-1 : Int))], 0) ∧
    verify_splitted_chunks [((0 : Int), (-1 : Int))] 0 = Except.ok true ∧
    ((-1 : Int) < (0 : Int)) := by
  refine ⟨?_, rfl, by decide⟩
  rw [calc_file_chunks_eval]
  have hp : plannedCount 0 (mn.getD (10 * 1024 * 1024)) (mx.getD (100 * 1024 * 1024)) = 1 := by
    simp [plannedCount, ceil_div_zero_left]
  rw [hp, ceil_div_zero_left]
  decide

/-! ### Claim C9 -/

/-- C9: the plan verification returns `True` exactly when the summed
inclusive lengths equal the file size, and when they differ,
`download_file` propagates the `AssertionError` raised at line 131 of
`downloader.py` without ever launching a fetcher (the second component
`false` records that the download phase was not reached). -/
theorem c9_verify_fail_fast :
    (∀ (parts : List (Int × Int)) (file_size : ℕ),
        verify_splitted_chunks parts file_size = Except.ok true ↔
          sum_parts_len parts = (file_size : Int)) ∧
    (∀ (file_size : ℕ) (mn mx : Option ℕ) (all_fetch_ok : Bool),
        sum_parts_len (calc_file_chunks file_size mn mx).1 ≠ (file_size : Int) →
          download_file (some file_size) mn mx all_fetch_ok =
            (Except.error DLErr.assertFail, false)) := by
  constructor
  · intro parts file_size
    unfold verify_splitted_chunks
    split_ifs with h
    · simp [h]
    · simp [h]
  · intro file_size mn mx all_fetch_ok h
    unfold download_file
    simp [verify_splitted_chunks, h]

/-- C9 witness: a plan whose sum matches is accepted
(`[(0, 4)]` for `file_size = 5`), and at the concrete failing input
`file_size = 7` with bounds `1`/`1` (whose plan sums to `3 ≠ 7`) the
orchestrator aborts before launching any fetcher. -/
theorem c9_verify_fail_fast_witness :
    verify_splitted_chunks [((0 : Int), (4 : Int))] 5 = Except.ok true ∧
    download_file (some 7) (some 1) (some 1) true =
      (Except.error DLErr.assertFail, false) :=
  ⟨(c9_verify_fail_fast.1 [((0 : Int), (4 : Int))] 5).mpr (by decide),
   c9_verify_fail_fast.2 7 (some 1) (some 1) true (by decide)⟩

/-! ### Claim C1 -/

/-- Once the single sentinel of `oneSentinelStream` has been consumed
(any tick `t >= 1` drains no events), the aggregator state keeps
`finished = 0`, so the loop for `total_parts = 1` never exits. -/
lemma aggLoop_stuck_after_sentinel (fuel : ℕ) :
    ∀ t d, 1 ≤ t →
      aggLoop 1 100 oneSentinelStream fuel t ⟨d, 0⟩ = none := by
  induction fuel with
  | zero =>
    intro t d ht
    simp [aggLoop]
  | succ fuel ih =>
    intro t d ht
    have h0 : oneSentinelStream t = [] := by
      unfold oneSentinelStream
      rw [if_neg (by omega)]
    have hst : (tick 100 ⟨d, 0⟩ (oneSentinelStream t)).1 = ⟨d, 0⟩ := by
      rw [h0]
      simp [tick, drainEvents, drainStep]
    simp only [aggLoop]
    rw [if_neg (by simp), hst]
    exact ih (t + 1) d (by omega)

/-- C1 fails on the code: a single fetcher that downloads an empty body
sends exactly one `-1` sentinel (during tick 0), yet the aggregator for
`total_parts = 1` never terminates, for any number of ticks.  The drain
loop (`downloader.py` line 85) increments `finished` when
`chunk_size != -1`, i.e. for every event except the sentinel, so the
sentinel leaves `finished` at `0` forever. -/
theorem c1_aggregator_never_terminates :
    ∀ fuel, aggLoop 1 100 oneSentinelStream fuel 0 ⟨0, 0⟩ = none := by
  intro fuel
  cases fuel with
  | zero => simp [aggLoop]
  | succ fuel =>
    have h0 : oneSentinelStream 0 = [(-1 : Int)] := rfl
    have hst : (tick 100 ⟨0, 0⟩ (oneSentinelStream 0)).1 = ⟨-1, 0⟩ := by
      rw [h0]
      simp [tick, drainEvents, drainStep]
    simp only [aggLoop]
    rw [if_neg (by simp), hst]
    exact aggLoop_stuck_after_sentinel fuel 1 (-1) (by omega)

/-! ### Claim C2 -/

/-- C2 fails on the code: draining the tick events `[10, -1]` (one 10-byte
chunk plus the sentinel of a finished fetcher) yields a per-tick delta of
`9`, not the sum `10` of the positive events, because line 87 of
`downloader.py` adds every `chunk_size` — the `-1` sentinel included — to
`download_per_second` (and line 85 increments `finished` for the positive
event instead of the sentinel). -/
theorem c2_delta_includes_sentinel :
    drainEvents [(10 : Int), (-1 : Int)] = ((9 : Int), 1) ∧
    ((9 : Int) ≠ (10 : Int)) := by
  decide

/-! ### Claim C3 -/

/-- On a stream the fetcher completes without raising, the emitted events
are positive events followed by exactly one `-1` sentinel. -/
lemma download_part_ok_events :
    ∀ s : List ReadRes, (download_part_events s).2 = true →
      ∃ pos, (download_part_events s).1 = pos ++ [(-1 : Int)] ∧ ∀ e ∈ pos, 0 < e := by
  intro s
  induction s with
  | nil =>
    intro _
    exact ⟨[], rfl, by simp⟩
  | cons r rest ih =>
    cases r with
    | chunk n =>
      cases n with
      | zero =>
        intro _
        exact ⟨[], rfl, by simp⟩
      | succ m =>
        intro h
        simp only [download_part_events] at h ⊢
        obtain ⟨pos, hpos, hall⟩ := ih h
        refine ⟨((m : Int) + 1) :: pos, by simp [hpos], ?_⟩
        intro e he
        rcases List.mem_cons.mp he with rfl | he
        · omega
        · exact hall e he
    | fail =>
      intro h
      simp [download_part_events] at h

/-- On a stream where the fetch raises mid-way, every emitted event is a
positive byte count: no sentinel is ever sent. -/
lemma download_part_fail_events :
    ∀ s : List ReadRes, (download_part_events s).2 = false →
      ∀ e ∈ (download_part_events s).1, 0 < e := by
  intro s
  induction s with
  | nil =>
    intro h
    simp [download_part_events] at h
  | cons r rest ih =>
    cases r with
    | chunk n =>
      cases n with
      | zero =>
        intro h
        simp [download_part_events] at h
      | succ m =>
        intro h e he
        simp only [download_part_events] at h he
        rcases List.mem_cons.mp he with rfl | he
        · omega
        · exact ih h e he
    | fail =>
      intro _ e he
      simp [download_part_events] at he

/-- C3 counterexample: the claim as stated fails.  A fetch that delivers
one 5-byte chunk and then raises mid-stream emits the events `[5]` —
zero `-1` sentinels, not exactly one. -/
theorem c3_counterexample :
    (download_part_events [ReadRes.chunk 5, ReadRes.fail]).1.count (-1 : Int) = 0 ∧
    (0 : ℕ) ≠ 1 := by
  decide

/-- C3 (amended): a fetcher invocation sends exactly one `-1` sentinel,
after all its positive events, whenever the fetch completes without
raising — including when the fetched body is empty; but when the fetch
fails partway the events sent before the failure contain no sentinel at
all (so the original claim's "on every outcome" does not hold, per
`c3_counterexample`). -/
theorem c3_sentinel_amended (s : List ReadRes) :
    ((download_part_events s).2 = true →
      (download_part_events s).1.count (-1 : Int) = 1 ∧
      ∃ pos, (download_part_events s).1 = pos ++ [(-1 : Int)] ∧ ∀ e ∈ pos, 0 < e) ∧
    ((download_part_events s).2 = false →
      (download_part_events s).1.count (-1 : Int) = 0 ∧
      ∀ e ∈ (download_part_events s).1, 0 < e) := by
  constructor
  · intro h
    obtain ⟨pos, hpos, hall⟩ := download_part_ok_events s h
    have hnot : (-1 : Int) ∉ pos := by
      intro hmem
      have := hall _ hmem
      omega
    refine ⟨?_, pos, hpos, hall⟩
    rw [hpos, List.count_append]
    rw [List.count_eq_zero.mpr hnot]
    decide
  · intro h
    have hall := download_part_fail_events s h
    have hnot : (-1 : Int) ∉ (download_part_events s).1 := by
      intro hmem
      have := hall _ hmem
      omega
    exact ⟨List.count_eq_zero.mpr hnot, hall⟩

/-- C3 witness: a fetch completing with a single 3-byte chunk emits
`[3, -1]` (one sentinel, after the positive event), and instantiating the
failure half at the same stream is vacuous. -/
theorem c3_sentinel_amended_witness :
    ((download_part_events [ReadRes.chunk 3]).2 = true →
      (download_part_events [ReadRes.chunk 3]).1.count (-1 : Int) = 1 ∧
      ∃ pos, (download_part_events [ReadRes.chunk 3]).1 = pos ++ [(-1 : Int)] ∧
        ∀ e ∈ pos, 0 < e) ∧
    ((download_part_events [ReadRes.chunk 3]).2 = false →
      (download_part_events [ReadRes.chunk 3]).1.count (-1 : Int) = 0 ∧
      ∀ e ∈ (download_part_events [ReadRes.chunk 3]).1, 0 < e) :=
  c3_sentinel_amended [ReadRes.chunk 3]

/-! ### Claim C4 -/

/-- C4 fails on the code: with `file_size = 100` (one planned part), a
failed fetch makes `download_file` reach `return saved` (line 169 of
`downloader.py`) with the local `saved` never assigned — the cleanup
branch (lines 160-168) deletes the partial parts but never sets `saved` —
so the call raises `UnboundLocalError` instead of returning `False`.
When all fetchers and the merge succeed the call does return `True`. -/
theorem c4_failure_path_raises :
    download_file (some 100) none none false =
      (Except.error DLErr.unboundLocal, true) ∧
    download_file (some 100) none none true = (Except.ok true, true) ∧
    (∀ b : Bool, (Except.error DLErr.unboundLocal : Except DLErr Bool) ≠ Except.ok b) := by
  refine ⟨rfl, rfl, ?_⟩
  intro b h
  exact Except.noConfusion h

/-! ### Claim C8 -/

/-- C8: a reporting tick whose drained per-tick delta is not positive
renders nothing — the guard `download_per_second > 0` (line 90 of
`downloader.py`) protects both the ETA division and the progress line, so
no division is evaluated on a zero-throughput tick. -/
theorem c8_zero_delta_no_render (total_size : ℕ) (st : AggState) (events : List Int)
    (h : (drainEvents events).1 ≤ 0) :
    (tick total_size st events).2 = none := by
  simp only [tick, tickRender]
  rw [if_neg (by omega)]

/-- C8 witness: a tick that drains only a sentinel (delta `-1 <= 0`)
renders no line and computes no ETA. -/
theorem c8_zero_delta_no_render_witness :
    (tick 100 ⟨0, 0⟩ [(-1 : Int)]).2 = none :=
  c8_zero_delta_no_render 100 ⟨0, 0⟩ [(-1 : Int)] (by decide)
